import Mathlib

/-!
Shallow embedding of the Hummingbird mentor backend (src/main.py).

The engine under verification is the `mentor_router` endpoint: a dispatcher
over the intents start/resume/get_phase, next, and chat/ask_doubt.  The
external collaborators (Supabase stored procedures, the text-generation
service) are modelled from the spec's call contract (section 6); the engine
logic itself is translated line by line from src/main.py.

State is threaded explicitly: a `World` carries the store contents, a
failure schedule for collaborator calls (one entry per successive call;
`none` means the call succeeds, `some msg` means it raises with message
`msg`), and a trace of the collaborator calls the engine performed.
-/

/-- Minimal JSON value model for phase content payloads. -/
inductive JsonVal where
  | null : JsonVal
  | str (s : String) : JsonVal
  | arr (xs : List JsonVal) : JsonVal
  | obj (fields : List (String × JsonVal)) : JsonVal


/-- Python truthiness for the JSON values of the model (`phase_content or {}`). -/
def jsonIsFalsy : JsonVal → Bool
  | .null => true
  | .str s => s.isEmpty
  | .arr xs => xs.isEmpty
  | .obj fs => fs.isEmpty

/-- `phase.get("phase_content") or {}` from src/main.py lines 102 and 150. -/
def orEmptyObj : Option JsonVal → JsonVal
  | none => .obj []
  | some j => if jsonIsFalsy j then .obj [] else j

/-- Key lookup in a JSON object's field list (Python `dict.get`). -/
def jsonLookup (fs : List (String × JsonVal)) (k : String) : Option JsonVal :=
  (fs.find? (fun e => e.1 = k)).map (fun e => e.2)

/-- Python `len()` on a JSON value: defined on strings, arrays and objects,
raises `TypeError` on `None`. -/
def jsonLen : JsonVal → Except String Nat
  | .null => .error "TypeError: object of type NoneType has no len()"
  | .str s => .ok s.length
  | .arr xs => .ok xs.length
  | .obj fs => .ok fs.length

/-- `len(phase_json.get("HYFs", []))` from src/main.py line 108: only a dict
has `.get`, so a non-object payload raises `AttributeError`. -/
def hyfsLen (j : JsonVal) : Except String Nat :=
  match j with
  | .obj fs => jsonLen ((jsonLookup fs "HYFs").getD (.arr []))
  | _ => .error "AttributeError: object has no attribute get"

/-- `len(phase_json if isinstance(phase_json, list) else [])` from
src/main.py line 124. -/
def mcqLen : JsonVal → Nat
  | .arr xs => xs.length
  | _ => 0

/-- `{**phase_json, ...}` from src/main.py lines 153 and 257: spreading a
non-mapping raises `TypeError`. -/
def spreadFields : JsonVal → Except String (List (String × JsonVal))
  | .obj fs => .ok fs
  | _ => .error "TypeError: argument after ** must be a mapping"

/-- A row of the durable macro cursor (`get_pointer_status` result). -/
structure PointerRow where
  react_order : Nat
  is_completed : Bool


/-- A row of the durable micro cursor (`get_local_tracker_status` result). -/
structure TrackerRow where
  phase_type : String
  tracker_type : String
  current_index : Nat
  total_items : Nat
  meta : JsonVal
  is_completed : Bool


/-- A phase row as returned by `get_phase_content`. -/
structure Phase where
  phase_id : String
  react_order : Nat
  phase_type : Option String
  phase_content : Option JsonVal
  current : Option Nat
  total : Option Nat


/-- The named arguments the engine passes to `update_local_tracker_status`;
`none` on an optional field means the engine omitted that argument. -/
structure TrackerArgs where
  phase_id : String
  phase_type : Option String
  tracker_type : Option String
  current_index : Option Nat
  total : Option Nat
  meta : Option JsonVal
  is_completed : Bool


/-- One collaborator call as the engine issues it (the trace alphabet). -/
inductive RpcCall where
  | getPointer : RpcCall
  | getPhase (ro : Option Nat) (ic : Option Bool) : RpcCall
  | updateTracker (a : TrackerArgs) : RpcCall
  | getTracker (pid : String) : RpcCall
  | updatePointer (ro : Nat) : RpcCall
  | completePointer (ro : Nat) : RpcCall
  | insertDoubt (q a : String) : RpcCall
  | genText (q : String) : RpcCall


/-- The durable state of the external store, restricted to one
(student, chapter) slice: the chapter's ordered phase list, the macro
pointer, the micro trackers keyed by phase id, and the doubts audit log. -/
structure Store where
  chapter : List Phase
  pointer : Option PointerRow
  trackers : List (String × TrackerRow)
  doubts : List (String × String)


/-- Modelled from the spec: `get_phase_content(chapterId, position,
isCompleted)` "returns the phase that should be current or next, or none if
the chapter is exhausted" — with no position, the chapter's first phase;
with `isCompleted = true`, the first phase past the position; otherwise the
phase at the position. -/
def get_phase_content (ch : List Phase) (ro : Option Nat) (ic : Option Bool) :
    Option Phase :=
  match ro, ic with
  | none, _ => ch.head?
  | some r, some true => (ch.filter (fun p => r < p.react_order)).head?
  | some r, _ => ch.find? (fun p => p.react_order = r)

/-- Upsert of a tracker row keyed by phase id (one logical row per
(student, phase)). -/
def upsertTracker (ts : List (String × TrackerRow)) (pid : String)
    (row : TrackerRow) : List (String × TrackerRow) :=
  if ts.any (fun e => e.1 = pid) then
    ts.map (fun e => if e.1 = pid then (pid, row) else e)
  else ts ++ [(pid, row)]

/-- Tracker lookup by phase id (`get_local_tracker_status`). -/
def lookupTracker (ts : List (String × TrackerRow)) (pid : String) :
    Option TrackerRow :=
  (ts.find? (fun e => e.1 = pid)).map (fun e => e.2)

/-- Modelled from the spec: `advanceTracker` "increments currentIndex; if
the post-increment index reaches totalItems, sets isCompleted = true". -/
def advanceTrackerRow (tr : TrackerRow) : TrackerRow :=
  let i := tr.current_index + 1
  { tr with current_index := i, is_completed := decide (tr.total_items ≤ i) }

/-- Modelled from the spec: the `update_local_tracker_status` stored
procedure. When the engine supplies index/total arguments the call is the
`initTracker` form and (up)serts the row verbatim; when it omits them the
call is the `advanceTracker` form of section 4.3. -/
def update_local_tracker_status (ts : List (String × TrackerRow))
    (a : TrackerArgs) : List (String × TrackerRow) :=
  match a.current_index, a.total with
  | some i, some n =>
      upsertTracker ts a.phase_id
        { phase_type := a.phase_type.getD ""
          tracker_type := a.tracker_type.getD ""
          current_index := i
          total_items := n
          meta := a.meta.getD .null
          is_completed := a.is_completed }
  | _, _ =>
      match lookupTracker ts a.phase_id with
      | some tr => upsertTracker ts a.phase_id (advanceTrackerRow tr)
      | none => ts

/-- Modelled from the spec: `update_pointer_status` writes the position
("idempotent no-op if unchanged"); moving to a new position leaves it not
yet completed. -/
def update_pointer_status (p : Option PointerRow) (r : Nat) :
    Option PointerRow :=
  match p with
  | some pr => if pr.react_order = r then some pr else some ⟨r, false⟩
  | none => some ⟨r, false⟩

/-- Modelled from the spec: `complete_pointer_status` marks the pointer at
the given position complete. -/
def complete_pointer_status (_ : Option PointerRow) (r : Nat) :
    Option PointerRow :=
  some ⟨r, true⟩

/-- A failure schedule for collaborator calls: one entry per successive
call; `none` (or an exhausted list) means the call succeeds. -/
abbrev Sched := List (Option String)

/-- The world a request runs in: store state, failure schedule, and the
trace of collaborator calls performed so far. -/
structure World where
  store : Store
  sched : Sched
  trace : List RpcCall


/-- One collaborator round-trip: pop the failure schedule; on success apply
the call's store effect; the call is always recorded in the trace. -/
def stepCall (w : World) (c : RpcCall) (f : Store → Store) :
    Option String × World :=
  match w.sched with
  | some m :: rest =>
      (some m, { w with sched := rest, trace := w.trace ++ [c] })
  | none :: rest =>
      (none, { w with sched := rest, store := f w.store, trace := w.trace ++ [c] })
  | [] => (none, { w with store := f w.store, trace := w.trace ++ [c] })

def callGetPointer (w : World) : Option String × World :=
  stepCall w .getPointer id

def callGetPhase (w : World) (ro : Option Nat) (ic : Option Bool) :
    Option String × World :=
  stepCall w (.getPhase ro ic) id

def callUpdateTracker (w : World) (a : TrackerArgs) : Option String × World :=
  stepCall w (.updateTracker a)
    (fun s => { s with trackers := update_local_tracker_status s.trackers a })

def callGetTracker (w : World) (pid : String) : Option String × World :=
  stepCall w (.getTracker pid) id

def callUpdatePointer (w : World) (r : Nat) : Option String × World :=
  stepCall w (.updatePointer r)
    (fun s => { s with pointer := update_pointer_status s.pointer r })

def callCompletePointer (w : World) (r : Nat) : Option String × World :=
  stepCall w (.completePointer r)
    (fun s => { s with pointer := complete_pointer_status s.pointer r })

def callInsertDoubt (w : World) (q a : String) : Option String × World :=
  stepCall w (.insertDoubt q a)
    (fun s => { s with doubts := s.doubts ++ [(q, a)] })

def callGenText (w : World) (q : String) : Option String × World :=
  stepCall w (.genText q) id

/-- The shapes a handler response can take. -/
inductive Response where
  | payload (ty : String) (fields : List (String × JsonVal)) (phase_id : String)
      (currentTotal : Option (Option Nat × Option Nat)) (messages : List String) :
      Response
  | message (m : String) : Response
  | reply (r : String) : Response
  | error (e : String) : Response


/-- The raw phase types the next flow treats as simple (src/main.py
line 208). -/
def simpleTypes : List String := ["concept", "media", "flashcard"]

/-- The raw phase types the next flow treats as compound (src/main.py
line 217). -/
def compoundTypes : List String := ["conversation", "mcq"]

/-- The terminal message of the next flow (src/main.py line 251). -/
def chapterCompletedMsg : String := "🎉 Chapter completed!"

/-- The start/resume/get_phase flow, src/main.py lines 73-176: read the
pointer, fetch the current phase, write the local tracker when the raw
phase type is conversation or mcq (unconditionally, with index 0 and the
full content snapshot as meta), write the pointer position, and shape the
payload from the freshly fetched content.  Any collaborator failure or
Python-level exception is caught and surfaced as an error response. -/
def startResume (w0 : World) : Response × World :=
  match callGetPointer w0 with
  | (some m, w) => (.error m, w)
  | (none, w) =>
    let ro := w.store.pointer.map (fun pr => pr.react_order)
    let ic := w.store.pointer.map (fun pr => pr.is_completed)
    match callGetPhase w ro ic with
    | (some m, w) => (.error m, w)
    | (none, w) =>
      match get_phase_content w.store.chapter ro ic with
      | none => (.error "No phase content found", w)
      | some phase =>
        let phase_json := orEmptyObj phase.phase_content
        let afterInit : Option String × World :=
          if phase.phase_type = some "conversation" then
            match hyfsLen phase_json with
            | .error e => (some e, w)
            | .ok totalHyfs =>
                callUpdateTracker w
                  { phase_id := phase.phase_id
                    phase_type := phase.phase_type
                    tracker_type := some "conversation"
                    current_index := some 0
                    total := some totalHyfs
                    meta := some phase_json
                    is_completed := false }
          else if phase.phase_type = some "mcq" then
            callUpdateTracker w
              { phase_id := phase.phase_id
                phase_type := phase.phase_type
                tracker_type := some "concept_mcq"
                current_index := some 0
                total := some (mcqLen phase_json)
                meta := some phase_json
                is_completed := false }
          else (none, w)
        match afterInit with
        | (some m, w) => (.error m, w)
        | (none, w) =>
          match callUpdatePointer w phase.react_order with
          | (some m, w) => (.error m, w)
          | (none, w) =>
            let phase_type := phase.phase_type.getD "concept"
            match spreadFields phase_json with
            | .error e => (.error e, w)
            | .ok fs =>
                (.payload phase_type fs phase.phase_id
                  (if phase_type = "concept" then some (phase.current, phase.total)
                   else none)
                  ["Starting " ++ phase_type], w)

/-- The next flow, src/main.py lines 181-274 (the reachable part of the
block; lines 276-309 sit after `return payload` and the except handler and
are unreachable): read the pointer, fetch the current phase with
`is_completed = False`, complete the pointer directly for simple types or
advance and re-read the tracker for compound ones (promoting to the pointer
when the re-read tracker is completed), then fetch the phase past the
position and either return the terminal message or the successor's
payload. -/
def nextFlow (w0 : World) : Response × World :=
  match callGetPointer w0 with
  | (some m, w) => (.error m, w)
  | (none, w) =>
    match w.store.pointer with
    | none => (.error "No pointer found", w)
    | some pr =>
      let ro := pr.react_order
      match callGetPhase w (some ro) (some false) with
      | (some m, w) => (.error m, w)
      | (none, w) =>
        match get_phase_content w.store.chapter (some ro) (some false) with
        | none => (.error "No current phase found", w)
        | some phase =>
          let branchRes : Option String × World :=
            match phase.phase_type with
            | none => (none, w)
            | some t =>
              if t ∈ simpleTypes then callCompletePointer w ro
              else if t ∈ compoundTypes then
                match callUpdateTracker w
                    { phase_id := phase.phase_id
                      phase_type := phase.phase_type
                      tracker_type := none
                      current_index := none
                      total := none
                      meta := none
                      is_completed := false } with
                | (some m, w) => (some m, w)
                | (none, w) =>
                  match callGetTracker w phase.phase_id with
                  | (some m, w) => (some m, w)
                  | (none, w) =>
                    match lookupTracker w.store.trackers phase.phase_id with
                    | some tr =>
                        if tr.is_completed then callCompletePointer w ro
                        else (none, w)
                    | none => (none, w)
              else (none, w)
          match branchRes with
          | (some m, w) => (.error m, w)
          | (none, w) =>
            match callGetPhase w (some ro) (some true) with
            | (some m, w) => (.error m, w)
            | (none, w) =>
              match get_phase_content w.store.chapter (some ro) (some true) with
              | none => (.message chapterCompletedMsg, w)
              | some nxt =>
                let nextType := nxt.phase_type.getD "concept"
                match spreadFields (orEmptyObj nxt.phase_content) with
                | .error e => (.error e, w)
                | .ok fs =>
                    (.payload nextType fs nxt.phase_id
                      (if nextType = "concept" then some (nxt.current, nxt.total)
                       else none)
                      ["Next " ++ nextType], w)

/-- The chat/ask_doubt flow, src/main.py lines 318-343: reject an empty
question, otherwise call the generation service, insert the
(question, answer) pair into the doubts log, and return the reply.  The
generation function is passed in as the collaborator's pure behaviour. -/
def chatFlow (gen : String → String) (q : String) (w0 : World) :
    Response × World :=
  if q = "" then (.error "No question provided", w0)
  else
    match callGenText w0 q with
    | (some m, w) => (.error m, w)
    | (none, w) =>
      let reply := gen q
      match callInsertDoubt w q reply with
      | (some m, w) => (.error m, w)
      | (none, w) => (.reply reply, w)

/-- The intent dispatcher of src/main.py's `mentor_router`. -/
def mentor_router (intent : String) (question : Option String)
    (gen : String → String) (w : World) : Response × World :=
  if intent = "start" ∨ intent = "resume" ∨ intent = "get_phase" then
    startResume w
  else if intent = "next" then nextFlow w
  else if intent = "chat" ∨ intent = "ask_doubt" then
    chatFlow gen (question.getD "") w
  else (.error "Unknown intent", w)

/-! ## Reduction helpers and concrete fixtures -/

/-- On the empty failure schedule every collaborator call succeeds. -/
theorem stepCall_nil (s : Store) (t : List RpcCall) (c : RpcCall)
    (f : Store → Store) :
    stepCall ⟨s, [], t⟩ c f = (none, ⟨f s, [], t ++ [c]⟩) := rfl

/-- Content of the fixture conversation phase: two high-yield facts plus one
ordinary field used to distinguish fresh content from cached content. -/
def convContent : JsonVal :=
  .obj [("HYFs", .arr [.str "h1", .str "h2"]), ("k", .str "fresh")]

/-- Fixture conversation phase at position 1. -/
def convPhase : Phase :=
  { phase_id := "pc", react_order := 1, phase_type := some "conversation"
    phase_content := some convContent, current := none, total := none }

/-- Fixture store: a one-phase chapter (the conversation) not yet started. -/
def sConvFresh : Store :=
  { chapter := [convPhase], pointer := none, trackers := [], doubts := [] }

/-- Fixture store: the conversation phase is current and its tracker has
already advanced to index 1 of 2. -/
def sConvTracked : Store :=
  { chapter := [convPhase], pointer := some ⟨1, false⟩
    trackers := [("pc", { phase_type := "conversation"
                          tracker_type := "conversation", current_index := 1
                          total_items := 2, meta := convContent
                          is_completed := false })]
    doubts := [] }

/-- Fixture store: the conversation phase is current and its tracker caches
a meta payload that differs from the phase store's fresh content. -/
def sConvCached : Store :=
  { chapter := [convPhase], pointer := some ⟨1, false⟩
    trackers := [("pc", { phase_type := "conversation"
                          tracker_type := "conversation", current_index := 0
                          total_items := 2, meta := .obj [("k", .str "old")]
                          is_completed := false })]
    doubts := [] }

/-- Fixture phase whose raw type carries the synonym spelling in mixed
case. -/
def flashPhase : Phase :=
  { phase_id := "pf", react_order := 1, phase_type := some "Flashcards"
    phase_content := some (.obj [("cards", .arr [.str "c1"])])
    current := none, total := none }

/-- Fixture store for the raw-label fixture phase. -/
def sFlash : Store :=
  { chapter := [flashPhase], pointer := none, trackers := [], doubts := [] }

/-- Fixture simple phase (concept) at position 1. -/
def conceptPhase : Phase :=
  { phase_id := "p1", react_order := 1, phase_type := some "concept"
    phase_content := some (.obj [("body", .str "b1")])
    current := some 1, total := some 3 }

/-- Fixture simple phase (flashcard) at position 2. -/
def flashcardPhase : Phase :=
  { phase_id := "p2", react_order := 2, phase_type := some "flashcard"
    phase_content := some (.obj [("cards", .arr [.str "c1"])])
    current := none, total := none }

/-- Fixture store: concept phase current at position 1, flashcard successor
at position 2. -/
def sTwoPhases : Store :=
  { chapter := [conceptPhase, flashcardPhase], pointer := some ⟨1, false⟩
    trackers := [], doubts := [] }

/-! ## Claim theorems -/

/-- Claim C1, counterexample: with a tracker row already present at index 1
for the current conversation phase, a repeated start/resume call still
performs a tracker write (the `update_local_tracker_status` call with index
0 appears in its trace) and resets the stored `currentIndex` from 1 back to
0, contrary to the claim that no tracker write happens and the index is not
reset. -/
theorem C1_counterexample :
    lookupTracker sConvTracked.trackers "pc" =
      some { phase_type := "conversation", tracker_type := "conversation"
             current_index := 1, total_items := 2, meta := convContent
             is_completed := false } ∧
    (startResume ⟨sConvTracked, [], []⟩).2.trace =
      [.getPointer, .getPhase (some 1) (some false),
       .updateTracker ⟨"pc", some "conversation", some "conversation", some 0,
         some 2, some convContent, false⟩,
       .updatePointer 1] ∧
    lookupTracker (startResume ⟨sConvTracked, [], []⟩).2.store.trackers "pc" =
      some { phase_type := "conversation", tracker_type := "conversation"
             current_index := 0, total_items := 2, meta := convContent
             is_completed := false } :=
  ⟨rfl, rfl, rfl⟩

/-- Claim C2, counterexample: the current conversation phase has a tracker
row whose cachedMeta is present and non-empty (`{"k": "old"}`), yet the
start/resume response's data block is built from the freshly fetched phase
content (`{"HYFs": ..., "k": "fresh"}`), not from the cachedMeta. -/
theorem C2_counterexample :
    (lookupTracker sConvCached.trackers "pc").map (fun tr => tr.meta) =
      some (.obj [("k", .str "old")]) ∧
    (startResume ⟨sConvCached, [], []⟩).1 =
      .payload "conversation"
        [("HYFs", .arr [.str "h1", .str "h2"]), ("k", .str "fresh")] "pc" none
        ["Starting conversation"] ∧
    ([("HYFs", JsonVal.arr [.str "h1", .str "h2"]), ("k", JsonVal.str "fresh")] ≠
      [("k", JsonVal.str "old")]) :=
  ⟨rfl, rfl, by simp⟩

/-- Claim C5, counterexample: the engine performs no normalization of the
raw phase-type label — a phase whose raw type is `"Flashcards"` is returned
with type `"Flashcards"`, not lower-cased and not mapped to the canonical
`"flashcard"`. -/
theorem C5_counterexample :
    (startResume ⟨sFlash, [], []⟩).1 =
      .payload "Flashcards" [("cards", .arr [.str "c1"])] "pf" none
        ["Starting Flashcards"] ∧
    "Flashcards" ≠ "flashcard" :=
  ⟨rfl, by decide⟩

/-- Claim C4, code bug: on a next request with a successor phase available
(current concept at position 1, flashcard successor at position 2), the
engine returns the successor's payload while the pointer is left at the old
position (1, completed) and the trace contains no `update_pointer_status`
call at all — the pointer-update step of the next flow (src/main.py lines
281-288) sits after `return payload` and the except handler and is
unreachable. -/
theorem C4_code_bug :
    (nextFlow ⟨sTwoPhases, [], []⟩).1 =
      .payload "flashcard" [("cards", .arr [.str "c1"])] "p2" none
        ["Next flashcard"] ∧
    (nextFlow ⟨sTwoPhases, [], []⟩).2.store.pointer = some ⟨1, true⟩ ∧
    (nextFlow ⟨sTwoPhases, [], []⟩).2.trace =
      [.getPointer, .getPhase (some 1) (some false), .completePointer 1,
       .getPhase (some 1) (some true)] :=
  ⟨rfl, rfl, rfl⟩

/-- Claim C8: a chat/ask_doubt request with a non-empty question returns the
generation service's reply, appends exactly the (question, answer) pair to
the doubts log, leaves the pointer and the trackers untouched, and its
trace consists of the generation call and the doubts insert only — no
pointer or tracker call. -/
theorem C8_chat_frame (s : Store) (gen : String → String) (q : String)
    (h : q ≠ "") :
    (chatFlow gen q ⟨s, [], []⟩).1 = .reply (gen q) ∧
    (chatFlow gen q ⟨s, [], []⟩).2.store.pointer = s.pointer ∧
    (chatFlow gen q ⟨s, [], []⟩).2.store.trackers = s.trackers ∧
    (chatFlow gen q ⟨s, [], []⟩).2.store.doubts = s.doubts ++ [(q, gen q)] ∧
    (chatFlow gen q ⟨s, [], []⟩).2.trace =
      [.genText q, .insertDoubt q (gen q)] := by
  refine ⟨?_, ?_, ?_, ?_, ?_⟩ <;>
    simp [chatFlow, callGenText, callInsertDoubt, stepCall, h]

/-- Witness for C8 at a concrete store and question. -/
theorem C8_chat_frame_witness :
    ("why" ≠ "") ∧
    (chatFlow (fun q => q ++ "!") "why" ⟨sConvFresh, [], []⟩).1 =
      .reply "why!" :=
  ⟨by decide, (C8_chat_frame sConvFresh (fun q => q ++ "!") "why"
    (by decide)).1⟩

/-- Claim C9: a collaborator failure never escapes a flow as a crash — for
every position `k` among the collaborator calls a flow performs (the
failure-free run's trace lists exactly those calls), if the (k+1)-th store
or generation call raises with message `m`, the flow returns the ordinary
error response carrying `m`.  This covers every call site: pointer read,
phase fetches, tracker write and re-read, pointer write/complete,
generation call and doubts insert. -/
theorem C9_failures_surfaced (s : Store) (gen : String → String) (q m : String)
    (rest : Sched) (k : Nat) :
    (k < (startResume ⟨s, [], []⟩).2.trace.length →
      (startResume ⟨s, List.replicate k none ++ some m :: rest, []⟩).1 =
        .error m) ∧
    (k < (nextFlow ⟨s, [], []⟩).2.trace.length →
      (nextFlow ⟨s, List.replicate k none ++ some m :: rest, []⟩).1 =
        .error m) ∧
    (k < (chatFlow gen q ⟨s, [], []⟩).2.trace.length →
      (chatFlow gen q ⟨s, List.replicate k none ++ some m :: rest, []⟩).1 =
        .error m) := by
  refine ⟨?_, ?_, ?_⟩
  · intro hk
    rcases hgp : get_phase_content s.chapter
        (Option.map (fun pr => pr.react_order) s.pointer)
        (Option.map (fun pr => pr.is_completed) s.pointer) with _ | P
    · have hL : (startResume ⟨s, [], []⟩).2.trace.length = 2 := by
        simp [startResume, callGetPointer, callGetPhase, callUpdateTracker,
          callUpdatePointer, stepCall, hgp]
      rw [hL] at hk
      interval_cases k <;>
        simp [startResume, callGetPointer, callGetPhase, callUpdateTracker,
          callUpdatePointer, stepCall, List.replicate, hgp]
    · by_cases hc : P.phase_type = some "conversation"
      · rcases hh : hyfsLen (orEmptyObj P.phase_content) with e | n
        · have hL : (startResume ⟨s, [], []⟩).2.trace.length = 2 := by
            simp [startResume, callGetPointer, callGetPhase, callUpdateTracker,
              callUpdatePointer, stepCall, hgp, hc, hh]
          rw [hL] at hk
          interval_cases k <;>
            simp [startResume, callGetPointer, callGetPhase, callUpdateTracker,
              callUpdatePointer, stepCall, List.replicate, hgp, hc, hh]
        · have hL : (startResume ⟨s, [], []⟩).2.trace.length = 4 := by
            rcases hs : spreadFields (orEmptyObj P.phase_content) with e | fs <;>
              simp [startResume, callGetPointer, callGetPhase, callUpdateTracker,
                callUpdatePointer, stepCall, hgp, hc, hh, hs]
          rw [hL] at hk
          interval_cases k <;>
            simp [startResume, callGetPointer, callGetPhase, callUpdateTracker,
              callUpdatePointer, stepCall, List.replicate, hgp, hc, hh]
      · by_cases hm : P.phase_type = some "mcq"
        · have hL : (startResume ⟨s, [], []⟩).2.trace.length = 4 := by
            rcases hs : spreadFields (orEmptyObj P.phase_content) with e | fs <;>
              simp [startResume, callGetPointer, callGetPhase, callUpdateTracker,
                callUpdatePointer, stepCall, hgp, hc, hm, hs]
          rw [hL] at hk
          interval_cases k <;>
            simp [startResume, callGetPointer, callGetPhase, callUpdateTracker,
              callUpdatePointer, stepCall, List.replicate, hgp, hc, hm]
        · have hL : (startResume ⟨s, [], []⟩).2.trace.length = 3 := by
            rcases hs : spreadFields (orEmptyObj P.phase_content) with e | fs <;>
              simp [startResume, callGetPointer, callGetPhase, callUpdateTracker,
                callUpdatePointer, stepCall, hgp, hc, hm, hs]
          rw [hL] at hk
          interval_cases k <;>
            simp [startResume, callGetPointer, callGetPhase, callUpdateTracker,
              callUpdatePointer, stepCall, List.replicate, hgp, hc, hm]
  · intro hk
    rcases hpr : s.pointer with _ | pr
    · have hL : (nextFlow ⟨s, [], []⟩).2.trace.length = 1 := by
        simp [nextFlow, callGetPointer, callGetPhase, callUpdateTracker,
          callGetTracker, callCompletePointer, stepCall, hpr]
      rw [hL] at hk
      interval_cases k <;>
        simp [nextFlow, callGetPointer, callGetPhase, callUpdateTracker,
          callGetTracker, callCompletePointer, stepCall, List.replicate, hpr]
    · rcases hgp : get_phase_content s.chapter (some pr.react_order) (some false)
          with _ | phase
      · have hL : (nextFlow ⟨s, [], []⟩).2.trace.length = 2 := by
          simp [nextFlow, callGetPointer, callGetPhase, callUpdateTracker,
            callGetTracker, callCompletePointer, stepCall, hpr, hgp]
        rw [hL] at hk
        interval_cases k <;>
          simp [nextFlow, callGetPointer, callGetPhase, callUpdateTracker,
            callGetTracker, callCompletePointer, stepCall, List.replicate, hpr,
            hgp]
      · rcases hpt : phase.phase_type with _ | t
        · have hL : (nextFlow ⟨s, [], []⟩).2.trace.length = 3 := by
            rcases hnx : get_phase_content s.chapter (some pr.react_order)
                (some true) with _ | nxt
            · simp [nextFlow, callGetPointer, callGetPhase, callUpdateTracker,
                callGetTracker, callCompletePointer, stepCall, hpr, hgp, hpt, hnx]
            · rcases hsp : spreadFields (orEmptyObj nxt.phase_content)
                  with e | fs <;>
                simp [nextFlow, callGetPointer, callGetPhase, callUpdateTracker,
                  callGetTracker, callCompletePointer, stepCall, hpr, hgp, hpt,
                  hnx, hsp]
          rw [hL] at hk
          interval_cases k <;>
            simp [nextFlow, callGetPointer, callGetPhase, callUpdateTracker,
              callGetTracker, callCompletePointer, stepCall, List.replicate, hpr,
              hgp, hpt]
        · by_cases h1 : t ∈ simpleTypes
          · have hL : (nextFlow ⟨s, [], []⟩).2.trace.length = 4 := by
              rcases hnx : get_phase_content s.chapter (some pr.react_order)
                  (some true) with _ | nxt
              · simp [nextFlow, callGetPointer, callGetPhase, callUpdateTracker,
                  callGetTracker, callCompletePointer, stepCall, hpr, hgp, hpt,
                  h1, hnx]
              · rcases hsp : spreadFields (orEmptyObj nxt.phase_content)
                    with e | fs <;>
                  simp [nextFlow, callGetPointer, callGetPhase, callUpdateTracker,
                    callGetTracker, callCompletePointer, stepCall, hpr, hgp, hpt,
                    h1, hnx, hsp]
            rw [hL] at hk
            interval_cases k <;>
              simp [nextFlow, callGetPointer, callGetPhase, callUpdateTracker,
                callGetTracker, callCompletePointer, stepCall, List.replicate,
                hpr, hgp, hpt, h1]
          · by_cases h2 : t ∈ compoundTypes
            · rcases hlk : lookupTracker
                  (update_local_tracker_status s.trackers
                    { phase_id := phase.phase_id, phase_type := some t
                      tracker_type := none, current_index := none, total := none
                      meta := none, is_completed := false }) phase.phase_id
                  with _ | tr
              · have hL : (nextFlow ⟨s, [], []⟩).2.trace.length = 5 := by
                  rcases hnx : get_phase_content s.chapter (some pr.react_order)
                      (some true) with _ | nxt
                  · simp [nextFlow, callGetPointer, callGetPhase,
                      callUpdateTracker, callGetTracker, callCompletePointer,
                      stepCall, hpr, hgp, hpt, h1, h2, hlk, hnx]
                  · rcases hsp : spreadFields (orEmptyObj nxt.phase_content)
                        with e | fs <;>
                      simp [nextFlow, callGetPointer, callGetPhase,
                        callUpdateTracker, callGetTracker, callCompletePointer,
                        stepCall, hpr, hgp, hpt, h1, h2, hlk, hnx, hsp]
                rw [hL] at hk
                interval_cases k <;>
                  simp [nextFlow, callGetPointer, callGetPhase, callUpdateTracker,
                    callGetTracker, callCompletePointer, stepCall, List.replicate,
                    hpr, hgp, hpt, h1, h2, hlk]
              · by_cases hic : tr.is_completed
                · have hL : (nextFlow ⟨s, [], []⟩).2.trace.length = 6 := by
                    rcases hnx : get_phase_content s.chapter (some pr.react_order)
                        (some true) with _ | nxt
                    · simp [nextFlow, callGetPointer, callGetPhase,
                        callUpdateTracker, callGetTracker, callCompletePointer,
                        stepCall, hpr, hgp, hpt, h1, h2, hlk, hic, hnx]
                    · rcases hsp : spreadFields (orEmptyObj nxt.phase_content)
                          with e | fs <;>
                        simp [nextFlow, callGetPointer, callGetPhase,
                          callUpdateTracker, callGetTracker, callCompletePointer,
                          stepCall, hpr, hgp, hpt, h1, h2, hlk, hic, hnx, hsp]
                  rw [hL] at hk
                  interval_cases k <;>
                    simp [nextFlow, callGetPointer, callGetPhase,
                      callUpdateTracker, callGetTracker, callCompletePointer,
                      stepCall, List.replicate, hpr, hgp, hpt, h1, h2, hlk, hic]
                · have hL : (nextFlow ⟨s, [], []⟩).2.trace.length = 5 := by
                    rcases hnx : get_phase_content s.chapter (some pr.react_order)
                        (some true) with _ | nxt
                    · simp [nextFlow, callGetPointer, callGetPhase,
                        callUpdateTracker, callGetTracker, callCompletePointer,
                        stepCall, hpr, hgp, hpt, h1, h2, hlk, hic, hnx]
                    · rcases hsp : spreadFields (orEmptyObj nxt.phase_content)
                          with e | fs <;>
                        simp [nextFlow, callGetPointer, callGetPhase,
                          callUpdateTracker, callGetTracker, callCompletePointer,
                          stepCall, hpr, hgp, hpt, h1, h2, hlk, hic, hnx, hsp]
                  rw [hL] at hk
                  interval_cases k <;>
                    simp [nextFlow, callGetPointer, callGetPhase,
                      callUpdateTracker, callGetTracker, callCompletePointer,
                      stepCall, List.replicate, hpr, hgp, hpt, h1, h2, hlk, hic]
            · have hL : (nextFlow ⟨s, [], []⟩).2.trace.length = 3 := by
                rcases hnx : get_phase_content s.chapter (some pr.react_order)
                    (some true) with _ | nxt
                · simp [nextFlow, callGetPointer, callGetPhase, callUpdateTracker,
                    callGetTracker, callCompletePointer, stepCall, hpr, hgp, hpt,
                    h1, h2, hnx]
                · rcases hsp : spreadFields (orEmptyObj nxt.phase_content)
                      with e | fs <;>
                    simp [nextFlow, callGetPointer, callGetPhase,
                      callUpdateTracker, callGetTracker, callCompletePointer,
                      stepCall, hpr, hgp, hpt, h1, h2, hnx, hsp]
              rw [hL] at hk
              interval_cases k <;>
                simp [nextFlow, callGetPointer, callGetPhase, callUpdateTracker,
                  callGetTracker, callCompletePointer, stepCall, List.replicate,
                  hpr, hgp, hpt, h1, h2]
  · intro hk
    by_cases hq : q = ""
    · have hL : (chatFlow gen q ⟨s, [], []⟩).2.trace.length = 0 := by
        simp [chatFlow, callGenText, callInsertDoubt, stepCall, hq]
      rw [hL] at hk
      omega
    · have hL : (chatFlow gen q ⟨s, [], []⟩).2.trace.length = 2 := by
        simp [chatFlow, callGenText, callInsertDoubt, stepCall, hq]
      rw [hL] at hk
      interval_cases k <;>
        simp [chatFlow, callGenText, callInsertDoubt, stepCall, List.replicate,
          hq]

/-- Witness for C9: the third start/resume call (the tracker write), the
third next call (the pointer completion) and the second chat call (the
doubts insert) each fail and surface as the error response. -/
theorem C9_failures_surfaced_witness :
    (2 < (startResume ⟨sConvFresh, [], []⟩).2.trace.length ∧
      (startResume ⟨sConvFresh,
        List.replicate 2 none ++ some "boom" :: [], []⟩).1 = .error "boom") ∧
    (2 < (nextFlow ⟨sTwoPhases, [], []⟩).2.trace.length ∧
      (nextFlow ⟨sTwoPhases,
        List.replicate 2 none ++ some "boom" :: [], []⟩).1 = .error "boom") ∧
    (1 < (chatFlow (fun q => q ++ "!") "why" ⟨sConvFresh, [], []⟩).2.trace.length ∧
      (chatFlow (fun q => q ++ "!") "why" ⟨sConvFresh,
        List.replicate 1 none ++ some "boom" :: [], []⟩).1 = .error "boom") :=
  ⟨⟨by decide, (C9_failures_surfaced sConvFresh (fun q => q ++ "!") "why"
      "boom" [] 2).1 (by decide)⟩,
   ⟨by decide, (C9_failures_surfaced sTwoPhases (fun q => q ++ "!") "why"
      "boom" [] 2).2.1 (by decide)⟩,
   ⟨by decide, (C9_failures_surfaced sConvFresh (fun q => q ++ "!") "why"
      "boom" [] 1).2.2 (by decide)⟩⟩

/-- Claim C10: the only tracker index the engine itself ever writes is 0,
during start/resume tracker initialization (where totals and meta are also
supplied); the compound-phase next path issues its
`update_local_tracker_status` call with no index, total, meta or
tracker-type argument at all, and the chat flow issues none — so the
increment of `currentIndex` and the completion decision are entirely the
external store procedure's. -/
theorem C10_tracker_writes (s : Store) (gen : String → String) (q : String) :
    (∀ a, RpcCall.updateTracker a ∈ (startResume ⟨s, [], []⟩).2.trace →
        a.current_index = some 0 ∧ a.total.isSome ∧ a.meta.isSome) ∧
    (∀ a, RpcCall.updateTracker a ∈ (nextFlow ⟨s, [], []⟩).2.trace →
        a.current_index = none ∧ a.total = none ∧ a.meta = none ∧
        a.tracker_type = none) ∧
    (∀ a, RpcCall.updateTracker a ∉ (chatFlow gen q ⟨s, [], []⟩).2.trace) := by
  refine ⟨?_, ?_, ?_⟩
  · intro a ha
    simp only [startResume, callGetPointer, callGetPhase, callUpdateTracker,
      callUpdatePointer, stepCall, id_eq, List.nil_append, List.cons_append,
      List.append_nil] at ha
    rcases hgp : get_phase_content s.chapter
        (Option.map (fun pr => pr.react_order) s.pointer)
        (Option.map (fun pr => pr.is_completed) s.pointer) with _ | phase
    · simp [hgp] at ha
    · by_cases hc : phase.phase_type = some "conversation"
      · rcases hh : hyfsLen (orEmptyObj phase.phase_content) with m | n
        · simp [hgp, hc, hh] at ha
        · rcases hs : spreadFields (orEmptyObj phase.phase_content) with e | fs <;>
            simp [hgp, hc, hh, hs] at ha <;>
            rcases ha with ⟨rfl, -⟩ <;> simp
      · by_cases hm : phase.phase_type = some "mcq"
        · rcases hs : spreadFields (orEmptyObj phase.phase_content) with e | fs <;>
            simp [hgp, hc, hm, hs] at ha <;>
            rcases ha with ⟨rfl, -⟩ <;> simp
        · rcases hs : spreadFields (orEmptyObj phase.phase_content) with e | fs <;>
            simp [hgp, hc, hm, hs] at ha
  · intro a ha
    simp only [nextFlow, callGetPointer, callGetPhase, callUpdateTracker,
      callGetTracker, callCompletePointer, stepCall, id_eq, List.nil_append,
      List.cons_append, List.append_nil] at ha
    rcases hpr : s.pointer with _ | pr
    · simp [hpr] at ha
    · rcases hgp : get_phase_content s.chapter (some pr.react_order) (some false)
          with _ | phase
      · simp [hpr, hgp] at ha
      · rcases hpt : phase.phase_type with _ | t
        · rcases hnx : get_phase_content s.chapter (some pr.react_order) (some true)
              with _ | nxt
          · simp [hpr, hgp, hpt, hnx] at ha
          · rcases hsp : spreadFields (orEmptyObj nxt.phase_content) with e | fs <;>
              simp [hpr, hgp, hpt, hnx, hsp] at ha
        · by_cases h1 : t ∈ simpleTypes
          · rcases hnx : get_phase_content s.chapter (some pr.react_order) (some true)
                with _ | nxt
            · simp [hpr, hgp, hpt, h1, hnx] at ha
            · rcases hsp : spreadFields (orEmptyObj nxt.phase_content) with e | fs <;>
                simp [hpr, hgp, hpt, h1, hnx, hsp] at ha
          · by_cases h2 : t ∈ compoundTypes
            · rcases hlk : lookupTracker
                  (update_local_tracker_status s.trackers
                    { phase_id := phase.phase_id, phase_type := some t
                      tracker_type := none, current_index := none, total := none
                      meta := none, is_completed := false }) phase.phase_id
                  with _ | tr
              · rcases hnx : get_phase_content s.chapter (some pr.react_order)
                    (some true) with _ | nxt
                · simp [hpr, hgp, hpt, h1, h2, hlk, hnx] at ha <;> subst ha <;> simp
                · rcases hsp : spreadFields (orEmptyObj nxt.phase_content)
                      with e | fs <;>
                    simp [hpr, hgp, hpt, h1, h2, hlk, hnx, hsp] at ha <;>
                    subst ha <;> simp
              · by_cases hic : tr.is_completed
                · rcases hnx : get_phase_content s.chapter (some pr.react_order)
                      (some true) with _ | nxt
                  · simp [hpr, hgp, hpt, h1, h2, hlk, hic, hnx] at ha <;>
                      subst ha <;> simp
                  · rcases hsp : spreadFields (orEmptyObj nxt.phase_content)
                        with e | fs <;>
                      simp [hpr, hgp, hpt, h1, h2, hlk, hic, hnx, hsp] at ha <;>
                      subst ha <;> simp
                · rcases hnx : get_phase_content s.chapter (some pr.react_order)
                      (some true) with _ | nxt
                  · simp [hpr, hgp, hpt, h1, h2, hlk, hic, hnx] at ha <;>
                      subst ha <;> simp
                  · rcases hsp : spreadFields (orEmptyObj nxt.phase_content)
                        with e | fs <;>
                      simp [hpr, hgp, hpt, h1, h2, hlk, hic, hnx, hsp] at ha <;>
                      subst ha <;> simp
            · rcases hnx : get_phase_content s.chapter (some pr.react_order)
                  (some true) with _ | nxt
              · simp [hpr, hgp, hpt, h1, h2, hnx] at ha
              · rcases hsp : spreadFields (orEmptyObj nxt.phase_content)
                    with e | fs <;>
                  simp [hpr, hgp, hpt, h1, h2, hnx, hsp] at ha
  · intro a ha
    simp only [chatFlow, callGenText, callInsertDoubt, stepCall, id_eq,
      List.nil_append, List.cons_append, List.append_nil] at ha
    by_cases hq : q = "" <;> simp [hq] at ha

/-- Witness for C10: at the tracked conversation store, the start/resume
trace contains exactly the index-0 initialization call. -/
theorem C10_tracker_writes_witness :
    RpcCall.updateTracker
        ⟨"pc", some "conversation", some "conversation", some 0, some 2,
          some convContent, false⟩ ∈
      (startResume ⟨sConvTracked, [], []⟩).2.trace ∧
    ((some 0 : Option Nat) = some 0 ∧ (some 2 : Option Nat).isSome ∧
      (some convContent).isSome) := by
  have hm : RpcCall.updateTracker
      ⟨"pc", some "conversation", some "conversation", some 0, some 2,
        some convContent, false⟩ ∈
      (startResume ⟨sConvTracked, [], []⟩).2.trace :=
    .tail _ (.tail _ (.head _))
  exact ⟨hm, (C10_tracker_writes sConvTracked (fun q => q) "x").1 _ hm⟩

/-- Claim C5 (amended): the engine performs no phase-type normalization at
all — the response's type field is the raw `phase_type` of the fetched
phase passed through unchanged (no lower-casing, no synonym mapping, so
`"Flashcards"` stays `"Flashcards"` and `"MCQ"` stays `"MCQ"`), and only an
absent raw type defaults to `"concept"`; a present empty-string raw type is
returned as the empty string. -/
theorem C5_amended (s : Store) (phase : Phase)
    (hgp : get_phase_content s.chapter
      (Option.map (fun pr => pr.react_order) s.pointer)
      (Option.map (fun pr => pr.is_completed) s.pointer) = some phase) :
    ∀ ty fs pid ct ms,
      (startResume ⟨s, [], []⟩).1 = .payload ty fs pid ct ms →
      ty = phase.phase_type.getD "concept" := by
  intro ty fs pid ct ms h
  simp only [startResume, callGetPointer, callGetPhase, callUpdateTracker,
    callUpdatePointer, stepCall, id_eq] at h
  by_cases hc : phase.phase_type = some "conversation"
  · rcases hh : hyfsLen (orEmptyObj phase.phase_content) with m | n
    · simp [hgp, hc, hh] at h
    · rcases hs : spreadFields (orEmptyObj phase.phase_content) with e | fs2 <;>
        simp [hgp, hc, hh, hs] at h <;> simp_all
  · by_cases hm : phase.phase_type = some "mcq"
    · rcases hs : spreadFields (orEmptyObj phase.phase_content) with e | fs2 <;>
        simp [hgp, hc, hm, hs] at h <;> simp_all
    · rcases hs : spreadFields (orEmptyObj phase.phase_content) with e | fs2 <;>
        simp [hgp, hc, hm, hs] at h <;> simp_all

/-- Witness for C5 (amended) at the `"Flashcards"` fixture store. -/
theorem C5_amended_witness :
    get_phase_content sFlash.chapter
        (Option.map (fun pr => pr.react_order) sFlash.pointer)
        (Option.map (fun pr => pr.is_completed) sFlash.pointer) =
      some flashPhase ∧
    (startResume ⟨sFlash, [], []⟩).1 =
      .payload "Flashcards" [("cards", .arr [.str "c1"])] "pf" none
        ["Starting Flashcards"] ∧
    "Flashcards" = flashPhase.phase_type.getD "concept" :=
  ⟨rfl, rfl, C5_amended sFlash flashPhase rfl "Flashcards"
    [("cards", .arr [.str "c1"])] "pf" none ["Starting Flashcards"] rfl⟩

/-- Claim C2 (amended): the tracker's cachedMeta is never consulted on
start/resume — the response is computed from the freshly fetched phase
content alone, so it is identical for any two tracker states (in
particular, when a cachedMeta is present and differs from the fresh
content, the fresh content is what is returned). -/
theorem C2_amended (s : Store) (t₁ t₂ : List (String × TrackerRow)) :
    (startResume ⟨{ s with trackers := t₁ }, [], []⟩).1 =
      (startResume ⟨{ s with trackers := t₂ }, [], []⟩).1 := by
  simp only [startResume, callGetPointer, callGetPhase, callUpdateTracker,
    callUpdatePointer, stepCall, id_eq]
  rcases hgp : get_phase_content s.chapter
      (Option.map (fun pr => pr.react_order) s.pointer)
      (Option.map (fun pr => pr.is_completed) s.pointer) with _ | phase
  · simp [hgp]
  · by_cases hc : phase.phase_type = some "conversation"
    · rcases hh : hyfsLen (orEmptyObj phase.phase_content) with m | n <;>
        rcases hs : spreadFields (orEmptyObj phase.phase_content) with e | fs <;>
        simp [hgp, hc, hh, hs]
    · by_cases hm : phase.phase_type = some "mcq" <;>
        rcases hs : spreadFields (orEmptyObj phase.phase_content) with e | fs <;>
        simp [hgp, hc, hm, hs]

/-- Claim C3: on a next request, a current phase of simple raw type
(concept, media, flashcard) leads to the pointer being completed directly
with no tracker call, while a compound raw type (conversation, mcq) leads
to the tracker being advanced (the argument-less update call appears in the
trace) and the pointer being completed if and only if the re-read tracker —
the tracker state after the advance — reports completion; the promotion is
thus the only path from a compound phase to pointer completion. -/
theorem C3_next_branching (s : Store) (pr : PointerRow) (phase : Phase)
    (t : String)
    (hpr : s.pointer = some pr)
    (hgp : get_phase_content s.chapter (some pr.react_order) (some false) =
      some phase)
    (hpt : phase.phase_type = some t) :
    (t ∈ simpleTypes →
      RpcCall.completePointer pr.react_order ∈ (nextFlow ⟨s, [], []⟩).2.trace ∧
      ∀ a, RpcCall.updateTracker a ∉ (nextFlow ⟨s, [], []⟩).2.trace) ∧
    (t ∈ compoundTypes →
      RpcCall.updateTracker
          ⟨phase.phase_id, some t, none, none, none, none, false⟩ ∈
        (nextFlow ⟨s, [], []⟩).2.trace ∧
      (RpcCall.completePointer pr.react_order ∈ (nextFlow ⟨s, [], []⟩).2.trace ↔
        ∃ tr, lookupTracker
            (update_local_tracker_status s.trackers
              ⟨phase.phase_id, some t, none, none, none, none, false⟩)
            phase.phase_id = some tr ∧ tr.is_completed)) := by
  constructor
  · intro h1
    constructor
    · rcases hnx : get_phase_content s.chapter (some pr.react_order) (some true)
          with _ | nxt
      · simp [nextFlow, callGetPointer, callGetPhase, callCompletePointer,
          callUpdateTracker, callGetTracker, stepCall, hpr, hgp, hpt, h1, hnx]
      · rcases hsp : spreadFields (orEmptyObj nxt.phase_content) with e | fs <;>
          simp [nextFlow, callGetPointer, callGetPhase, callCompletePointer,
            callUpdateTracker, callGetTracker, stepCall, hpr, hgp, hpt, h1, hnx,
            hsp]
    · intro a
      rcases hnx : get_phase_content s.chapter (some pr.react_order) (some true)
          with _ | nxt
      · simp [nextFlow, callGetPointer, callGetPhase, callCompletePointer,
          callUpdateTracker, callGetTracker, stepCall, hpr, hgp, hpt, h1, hnx]
      · rcases hsp : spreadFields (orEmptyObj nxt.phase_content) with e | fs <;>
          simp [nextFlow, callGetPointer, callGetPhase, callCompletePointer,
            callUpdateTracker, callGetTracker, stepCall, hpr, hgp, hpt, h1, hnx,
            hsp]
  · intro h2
    have h1 : t ∉ simpleTypes := by
      rcases (by simpa [compoundTypes] using h2 : t = "conversation" ∨ t = "mcq")
          with rfl | rfl <;> simp [simpleTypes]
    rcases hlk : lookupTracker
        (update_local_tracker_status s.trackers
          ⟨phase.phase_id, some t, none, none, none, none, false⟩)
        phase.phase_id with _ | tr
    · constructor
      · rcases hnx : get_phase_content s.chapter (some pr.react_order) (some true)
            with _ | nxt
        · simp [nextFlow, callGetPointer, callGetPhase, callCompletePointer,
            callUpdateTracker, callGetTracker, stepCall, hpr, hgp, hpt, h1, h2,
            hlk, hnx]
        · rcases hsp : spreadFields (orEmptyObj nxt.phase_content) with e | fs <;>
            simp [nextFlow, callGetPointer, callGetPhase, callCompletePointer,
              callUpdateTracker, callGetTracker, stepCall, hpr, hgp, hpt, h1, h2,
              hlk, hnx, hsp]
      · rcases hnx : get_phase_content s.chapter (some pr.react_order) (some true)
            with _ | nxt
        · simp [nextFlow, callGetPointer, callGetPhase, callCompletePointer,
            callUpdateTracker, callGetTracker, stepCall, hpr, hgp, hpt, h1, h2,
            hlk, hnx]
        · rcases hsp : spreadFields (orEmptyObj nxt.phase_content) with e | fs <;>
            simp [nextFlow, callGetPointer, callGetPhase, callCompletePointer,
              callUpdateTracker, callGetTracker, stepCall, hpr, hgp, hpt, h1, h2,
              hlk, hnx, hsp]
    · by_cases hic : tr.is_completed
      · constructor
        · rcases hnx : get_phase_content s.chapter (some pr.react_order) (some true)
              with _ | nxt
          · simp [nextFlow, callGetPointer, callGetPhase, callCompletePointer,
              callUpdateTracker, callGetTracker, stepCall, hpr, hgp, hpt, h1, h2,
              hlk, hic, hnx]
          · rcases hsp : spreadFields (orEmptyObj nxt.phase_content) with e | fs <;>
              simp [nextFlow, callGetPointer, callGetPhase, callCompletePointer,
                callUpdateTracker, callGetTracker, stepCall, hpr, hgp, hpt, h1, h2,
                hlk, hic, hnx, hsp]
        · rcases hnx : get_phase_content s.chapter (some pr.react_order) (some true)
              with _ | nxt
          · simp [nextFlow, callGetPointer, callGetPhase, callCompletePointer,
              callUpdateTracker, callGetTracker, stepCall, hpr, hgp, hpt, h1, h2,
              hlk, hic, hnx]
          · rcases hsp : spreadFields (orEmptyObj nxt.phase_content) with e | fs <;>
              simp [nextFlow, callGetPointer, callGetPhase, callCompletePointer,
                callUpdateTracker, callGetTracker, stepCall, hpr, hgp, hpt, h1, h2,
                hlk, hic, hnx, hsp]
      · constructor
        · rcases hnx : get_phase_content s.chapter (some pr.react_order) (some true)
              with _ | nxt
          · simp [nextFlow, callGetPointer, callGetPhase, callCompletePointer,
              callUpdateTracker, callGetTracker, stepCall, hpr, hgp, hpt, h1, h2,
              hlk, hic, hnx]
          · rcases hsp : spreadFields (orEmptyObj nxt.phase_content) with e | fs <;>
              simp [nextFlow, callGetPointer, callGetPhase, callCompletePointer,
                callUpdateTracker, callGetTracker, stepCall, hpr, hgp, hpt, h1, h2,
                hlk, hic, hnx, hsp]
        · rcases hnx : get_phase_content s.chapter (some pr.react_order) (some true)
              with _ | nxt
          · simp [nextFlow, callGetPointer, callGetPhase, callCompletePointer,
              callUpdateTracker, callGetTracker, stepCall, hpr, hgp, hpt, h1, h2,
              hlk, hic, hnx]
          · rcases hsp : spreadFields (orEmptyObj nxt.phase_content) with e | fs <;>
              simp [nextFlow, callGetPointer, callGetPhase, callCompletePointer,
                callUpdateTracker, callGetTracker, stepCall, hpr, hgp, hpt, h1, h2,
                hlk, hic, hnx, hsp]

/-- Witness for C3: at the tracked conversation store (index 1 of 2), the
advance completes the tracker and the promotion fires. -/
theorem C3_next_branching_witness :
    sConvTracked.pointer = some ⟨1, false⟩ ∧
    get_phase_content sConvTracked.chapter (some 1) (some false) =
      some convPhase ∧
    convPhase.phase_type = some "conversation" ∧
    "conversation" ∈ compoundTypes ∧
    (RpcCall.updateTracker
        ⟨"pc", some "conversation", none, none, none, none, false⟩ ∈
      (nextFlow ⟨sConvTracked, [], []⟩).2.trace ∧
    (RpcCall.completePointer 1 ∈ (nextFlow ⟨sConvTracked, [], []⟩).2.trace ↔
      ∃ tr, lookupTracker
          (update_local_tracker_status sConvTracked.trackers
            ⟨"pc", some "conversation", none, none, none, none, false⟩)
          "pc" = some tr ∧ tr.is_completed)) := by
  refine ⟨rfl, rfl, rfl, by simp [compoundTypes], ?_⟩
  exact (C3_next_branching sConvTracked ⟨1, false⟩ convPhase "conversation"
    rfl rfl rfl).2 (by simp [compoundTypes])
/-- Repeated next requests: run the next flow, thread the resulting store
into the following request, and return the response of the last request
(index `n` is the (n+1)-th call). -/
def nextIter (s : Store) : Nat → Response × Store
  | 0 => ((nextFlow ⟨s, [], []⟩).1, (nextFlow ⟨s, [], []⟩).2.store)
  | n + 1 => nextIter ((nextFlow ⟨s, [], []⟩).2.store) n

/-- In the exhausted state (a current phase exists, no successor does) one
next call answers with the terminal message and preserves the exhausted
state: the chapter is untouched and the pointer keeps its position. -/
theorem nextFlow_terminal (s : Store) (pr : PointerRow) (phase : Phase)
    (hpr : s.pointer = some pr)
    (hgp : get_phase_content s.chapter (some pr.react_order) (some false) =
      some phase)
    (hnx : get_phase_content s.chapter (some pr.react_order) (some true) =
      none) :
    (nextFlow ⟨s, [], []⟩).1 = .message chapterCompletedMsg ∧
    (nextFlow ⟨s, [], []⟩).2.store.chapter = s.chapter ∧
    ∃ b, (nextFlow ⟨s, [], []⟩).2.store.pointer =
      some ⟨pr.react_order, b⟩ := by
  rcases hpt : phase.phase_type with _ | t
  · refine ⟨?_, ?_, pr.is_completed, ?_⟩ <;>
      simp [nextFlow, callGetPointer, callGetPhase, callCompletePointer,
        callUpdateTracker, callGetTracker, stepCall, hpr, hgp, hpt, hnx]
  · by_cases h1 : t ∈ simpleTypes
    · refine ⟨?_, ?_, true, ?_⟩ <;>
        simp [nextFlow, callGetPointer, callGetPhase, callCompletePointer,
          callUpdateTracker, callGetTracker, stepCall, hpr, hgp, hpt, h1, hnx,
          complete_pointer_status]
    · by_cases h2 : t ∈ compoundTypes
      · rcases hlk : lookupTracker
            (update_local_tracker_status s.trackers
              ⟨phase.phase_id, some t, none, none, none, none, false⟩)
            phase.phase_id with _ | tr
        · refine ⟨?_, ?_, pr.is_completed, ?_⟩ <;>
            simp [nextFlow, callGetPointer, callGetPhase, callCompletePointer,
              callUpdateTracker, callGetTracker, stepCall, hpr, hgp, hpt, h1,
              h2, hlk, hnx]
        · by_cases hic : tr.is_completed
          · refine ⟨?_, ?_, true, ?_⟩ <;>
              simp [nextFlow, callGetPointer, callGetPhase, callCompletePointer,
                callUpdateTracker, callGetTracker, stepCall, hpr, hgp, hpt, h1,
                h2, hlk, hic, hnx, complete_pointer_status]
          · refine ⟨?_, ?_, pr.is_completed, ?_⟩ <;>
              simp [nextFlow, callGetPointer, callGetPhase, callCompletePointer,
                callUpdateTracker, callGetTracker, stepCall, hpr, hgp, hpt, h1,
                h2, hlk, hic, hnx]
      · refine ⟨?_, ?_, pr.is_completed, ?_⟩ <;>
          simp [nextFlow, callGetPointer, callGetPhase, callCompletePointer,
            callUpdateTracker, callGetTracker, stepCall, hpr, hgp, hpt, h1, h2,
            hnx]

/-- Claim C6: once the phase store reports no successor while a current
phase still exists, every next request — the first and every subsequent
one — returns the terminal chapter-completed message, never an error
object and never a phase payload. -/
theorem C6_terminal_state (s : Store) (pr : PointerRow) (phase : Phase)
    (hpr : s.pointer = some pr)
    (hgp : get_phase_content s.chapter (some pr.react_order) (some false) =
      some phase)
    (hnx : get_phase_content s.chapter (some pr.react_order) (some true) =
      none) :
    ∀ n, (nextIter s n).1 = .message chapterCompletedMsg := by
  intro n
  induction n generalizing s pr with
  | zero =>
      exact (nextFlow_terminal s pr phase hpr hgp hnx).1
  | succ n ih =>
      obtain ⟨-, hch, b, hptr⟩ := nextFlow_terminal s pr phase hpr hgp hnx
      have := ih ((nextFlow ⟨s, [], []⟩).2.store) ⟨pr.react_order, b⟩
        hptr (by rw [hch]; exact hgp) (by rw [hch]; exact hnx)
      simpa [nextIter] using this

/-- Fixture store for the exhausted chapter: one concept phase, pointer on
it, no phase past position 1. -/
def sOnePhase : Store :=
  { chapter := [conceptPhase], pointer := some ⟨1, false⟩, trackers := []
    doubts := [] }

/-- Witness for C6: on the one-phase store the first and third next
requests both return the terminal message. -/
theorem C6_terminal_state_witness :
    sOnePhase.pointer = some ⟨1, false⟩ ∧
    get_phase_content sOnePhase.chapter (some 1) (some false) =
      some conceptPhase ∧
    get_phase_content sOnePhase.chapter (some 1) (some true) = none ∧
    (nextIter sOnePhase 0).1 = .message chapterCompletedMsg ∧
    (nextIter sOnePhase 2).1 = .message chapterCompletedMsg :=
  ⟨rfl, rfl, rfl,
    C6_terminal_state sOnePhase ⟨1, false⟩ conceptPhase rfl rfl rfl 0,
    C6_terminal_state sOnePhase ⟨1, false⟩ conceptPhase rfl rfl rfl 2⟩
/-- A role-tagged chat message of the mentor conversation transcript. -/
structure ChatMsg where
  role : String
  content : String

/-- Modelled from the spec: the mentor-chat handler of section 4.5 (its
endpoint is not part of src/main.py). With no block id it seeds a four
message sequence {system instruction, student name, serialized phase
context, question}, calls the generation service once, appends the reply
and persists the transcript under a fresh block id; with a block id it
loads the stored transcript (latest write wins), fails when none exists,
appends the new question, replays the entire accumulated sequence to the
generation service, appends the reply and overwrites the stored sequence.
The `sent` field records the message list handed to the generation
service. -/
def mentorChat (gen : List ChatMsg → String)
    (instr studentName phaseContext question : String)
    (blockId : Option String) (newId : String)
    (blocks : List (String × List ChatMsg)) :
    Except String (String × String) × List (String × List ChatMsg) ×
      List ChatMsg :=
  match blockId with
  | none =>
      let seed : List ChatMsg :=
        [⟨"system", instr⟩, ⟨"system", studentName⟩,
         ⟨"system", phaseContext⟩, ⟨"user", question⟩]
      let reply := gen seed
      (.ok (reply, newId), (newId, seed ++ [⟨"assistant", reply⟩]) :: blocks,
        seed)
  | some bid =>
      match (blocks.find? (fun e => e.1 = bid)).map (fun e => e.2) with
      | none => (.error "conversation not found", blocks, [])
      | some hist =>
          let sent := hist ++ [⟨"user", question⟩]
          let reply := gen sent
          (.ok (reply, bid), (bid, sent ++ [⟨"assistant", reply⟩]) :: blocks,
            sent)

/-- Claim C7: a continuation turn replays the full accumulated transcript —
after a first no-block-id turn, a second turn with that block id sends the
4 seed messages plus the assistant reply plus the new question (length 6,
not a reset list), returns the reply with the same block id, and stores
the sent sequence extended by the new reply. -/
theorem C7_mentor_full_history (gen : List ChatMsg → String)
    (instr name ctx q1 q2 nid : String)
    (blocks0 : List (String × List ChatMsg)) :
    (mentorChat gen instr name ctx q1 none nid blocks0).2.2.length = 4 ∧
    (mentorChat gen instr name ctx q2 (some nid) nid
        (mentorChat gen instr name ctx q1 none nid blocks0).2.1).2.2 =
      [⟨"system", instr⟩, ⟨"system", name⟩, ⟨"system", ctx⟩, ⟨"user", q1⟩,
       ⟨"assistant", gen [⟨"system", instr⟩, ⟨"system", name⟩,
         ⟨"system", ctx⟩, ⟨"user", q1⟩]⟩, ⟨"user", q2⟩] ∧
    (mentorChat gen instr name ctx q2 (some nid) nid
        (mentorChat gen instr name ctx q1 none nid blocks0).2.1).2.2.length =
      6 ∧
    (mentorChat gen instr name ctx q2 (some nid) nid
        (mentorChat gen instr name ctx q1 none nid blocks0).2.1).1 =
      .ok (gen (mentorChat gen instr name ctx q2 (some nid) nid
        (mentorChat gen instr name ctx q1 none nid blocks0).2.1).2.2, nid) ∧
    ((mentorChat gen instr name ctx q2 (some nid) nid
        (mentorChat gen instr name ctx q1 none nid blocks0).2.1).2.1.find?
          (fun e => e.1 = nid)).map (fun e => e.2) =
      some ((mentorChat gen instr name ctx q2 (some nid) nid
        (mentorChat gen instr name ctx q1 none nid blocks0).2.1).2.2 ++
        [⟨"assistant", gen (mentorChat gen instr name ctx q2 (some nid) nid
          (mentorChat gen instr name ctx q1 none nid blocks0).2.1).2.2⟩]) := by
  simp [mentorChat, List.find?]
/-- In a chapter with pairwise distinct positions, looking a member phase up
by its own position finds exactly that phase. -/
theorem find_ro (ch : List Phase) (P : Phase)
    (hnd : (ch.map (fun p => p.react_order)).Nodup) (hP : P ∈ ch) :
    ch.find? (fun p => p.react_order = P.react_order) = some P := by
  induction ch with
  | nil => cases hP
  | cons x t ih =>
      rcases List.mem_cons.1 hP with rfl | hP2
      · exact List.find?_cons_of_pos _ (by simp)
      · rcases List.nodup_cons.1 hnd with ⟨hhead, htail⟩
        by_cases hh : x.react_order = P.react_order
        · refine absurd ?_ hhead
          show x.react_order ∈ List.map (fun p => p.react_order) t
          rw [hh]
          exact List.mem_map_of_mem (fun p => p.react_order) hP2
        · rw [List.find?_cons_of_neg _ (by simpa using hh)]
          exact ih htail hP2

/-- The keyed tracker upsert preserves distinctness of the keys. -/
theorem upsert_keys (ts : List (String × TrackerRow)) (pid : String)
    (row : TrackerRow) (h : (ts.map (fun e => e.1)).Nodup) :
    ((upsertTracker ts pid row).map (fun e => e.1)).Nodup := by
  unfold upsertTracker
  by_cases hany : ts.any (fun e => e.1 = pid)
  · rw [if_pos hany]
    have hkeys : (ts.map (fun e => if e.1 = pid then (pid, row) else e)).map
        (fun e => e.1) = ts.map (fun e => e.1) := by
      rw [List.map_map]
      apply List.map_congr_left
      intro e _
      by_cases h1 : e.1 = pid <;> simp [h1]
    rw [hkeys]; exact h
  · rw [if_neg hany]
    have hpid : pid ∉ ts.map (fun e => e.1) := by
      intro hmem
      rcases List.mem_map.1 hmem with ⟨e, he, hpe⟩
      exact hany (List.any_eq_true.2 ⟨e, he, by simp [hpe]⟩)
    simp only [List.map_append, List.map_cons, List.map_nil]
    exact List.Nodup.append h (List.nodup_singleton pid)
      (by simpa [List.disjoint_singleton] using hpid)

/-- The modelled tracker procedure preserves distinctness of the keys. -/
theorem update_tracker_keys (ts : List (String × TrackerRow)) (a : TrackerArgs)
    (h : (ts.map (fun e => e.1)).Nodup) :
    ((update_local_tracker_status ts a).map (fun e => e.1)).Nodup := by
  unfold update_local_tracker_status
  split
  · exact upsert_keys _ _ _ h
  · split
    · exact upsert_keys _ _ _ h
    · exact h

/-- After the start/resume pointer write, fetching the current phase again
yields the same phase (chapter positions distinct). -/
theorem fetch_after_update (ch : List Phase) (p : Option PointerRow)
    (P : Phase) (hnd : (ch.map (fun q => q.react_order)).Nodup)
    (h : get_phase_content ch (Option.map (fun pr => pr.react_order) p)
      (Option.map (fun pr => pr.is_completed) p) = some P) :
    get_phase_content ch
      (Option.map (fun pr => pr.react_order) (update_pointer_status p P.react_order))
      (Option.map (fun pr => pr.is_completed) (update_pointer_status p P.react_order)) =
    some P := by
  rcases p with _ | pr
  · simp only [Option.map_none', get_phase_content] at h
    simp only [update_pointer_status, Option.map_some']
    exact find_ro ch P hnd (List.mem_of_mem_head? (by simp [h]))
  · simp only [Option.map_some'] at h
    rcases hb : pr.is_completed with _ | _
    · rw [hb] at h
      simp only [get_phase_content] at h
      have hro : P.react_order = pr.react_order := by
        simpa using List.find?_some h
      simp only [update_pointer_status, if_pos hro.symm, Option.map_some', hb]
      exact h
    · rw [hb] at h
      simp only [get_phase_content] at h
      have hmem : P ∈ ch.filter (fun q => pr.react_order < q.react_order) :=
        List.mem_of_mem_head? (by simp [h])
      have hlt : pr.react_order < P.react_order := by
        simpa using List.of_mem_filter hmem
      have hne : ¬ pr.react_order = P.react_order := Nat.ne_of_lt hlt
      simp only [update_pointer_status, if_neg hne, Option.map_some']
      exact find_ro ch P hnd (List.mem_of_mem_filter hmem)
/-- The start/resume response is a function of the fetched phase alone: two
stores whose phase fetch yields the same phase produce the same response. -/
theorem startResume_resp_eq (s₁ s₂ : Store) (P : Phase)
    (h₁ : get_phase_content s₁.chapter
      (Option.map (fun pr => pr.react_order) s₁.pointer)
      (Option.map (fun pr => pr.is_completed) s₁.pointer) = some P)
    (h₂ : get_phase_content s₂.chapter
      (Option.map (fun pr => pr.react_order) s₂.pointer)
      (Option.map (fun pr => pr.is_completed) s₂.pointer) = some P) :
    (startResume ⟨s₁, [], []⟩).1 = (startResume ⟨s₂, [], []⟩).1 := by
  simp only [startResume, callGetPointer, callGetPhase, callUpdateTracker,
    callUpdatePointer, stepCall, id_eq]
  by_cases hc : P.phase_type = some "conversation"
  · rcases hh : hyfsLen (orEmptyObj P.phase_content) with m | n
    · simp [h₁, h₂, hc, hh]
    · rcases hs : spreadFields (orEmptyObj P.phase_content) with e | fs <;>
        simp [h₁, h₂, hc, hh, hs]
  · by_cases hm : P.phase_type = some "mcq" <;>
      rcases hs : spreadFields (orEmptyObj P.phase_content) with e | fs <;>
      simp [h₁, h₂, hc, hm, hs]

/-- The start/resume flow preserves distinctness of the tracker keys (its
only tracker write is one keyed upsert). -/
theorem startResume_keys (s : Store)
    (h : (s.trackers.map (fun e => e.1)).Nodup) :
    (((startResume ⟨s, [], []⟩).2.store.trackers).map (fun e => e.1)).Nodup := by
  simp only [startResume, callGetPointer, callGetPhase, callUpdateTracker,
    callUpdatePointer, stepCall, id_eq]
  rcases hgp : get_phase_content s.chapter
      (Option.map (fun pr => pr.react_order) s.pointer)
      (Option.map (fun pr => pr.is_completed) s.pointer) with _ | phase
  · simpa [hgp] using h
  · by_cases hc : phase.phase_type = some "conversation"
    · rcases hh : hyfsLen (orEmptyObj phase.phase_content) with m | n
      · simpa [hgp, hc, hh] using h
      · rcases hs : spreadFields (orEmptyObj phase.phase_content) with e | fs <;>
          simp only [hgp, hc, hh, hs] <;>
          simpa [hgp, hc, hh, hs] using update_tracker_keys s.trackers _ h
    · by_cases hm : phase.phase_type = some "mcq"
      · rcases hs : spreadFields (orEmptyObj phase.phase_content) with e | fs <;>
          simpa [hgp, hc, hm, hs] using update_tracker_keys s.trackers _ h
      · rcases hs : spreadFields (orEmptyObj phase.phase_content) with e | fs <;>
          simpa [hgp, hc, hm, hs] using h
/-- Claim C1 (amended): start/resume on a chapter with distinct positions is
idempotent in its response — calling it twice in a row yields the same
response — and tracker rows stay keyed uniquely (at most one row per
phase), but the tracker write itself is unconditional: each call of a
compound phase re-initializes the tracker with index 0 rather than skipping
the write when a row exists. -/
theorem C1_amended (s : Store)
    (hnd : (s.chapter.map (fun p => p.react_order)).Nodup)
    (hkeys : (s.trackers.map (fun e => e.1)).Nodup) :
    (startResume ⟨(startResume ⟨s, [], []⟩).2.store, [], []⟩).1 =
      (startResume ⟨s, [], []⟩).1 ∧
    (((startResume ⟨s, [], []⟩).2.store.trackers).map (fun e => e.1)).Nodup ∧
    (((startResume ⟨(startResume ⟨s, [], []⟩).2.store, [], []⟩).2.store.trackers).map
        (fun e => e.1)).Nodup := by
  refine ⟨?_, startResume_keys s hkeys,
    startResume_keys _ (startResume_keys s hkeys)⟩
  rcases hgp : get_phase_content s.chapter
      (Option.map (fun pr => pr.react_order) s.pointer)
      (Option.map (fun pr => pr.is_completed) s.pointer) with _ | P
  · have hst : (startResume ⟨s, [], []⟩).2.store = s := by
      simp [startResume, callGetPointer, callGetPhase, callUpdateTracker,
        callUpdatePointer, stepCall, hgp]
    rw [hst]
  · by_cases hc : P.phase_type = some "conversation"
    · rcases hh : hyfsLen (orEmptyObj P.phase_content) with m | n
      · have hst : (startResume ⟨s, [], []⟩).2.store = s := by
          simp [startResume, callGetPointer, callGetPhase, callUpdateTracker,
            callUpdatePointer, stepCall, hgp, hc, hh]
        rw [hst]
      · have hch : (startResume ⟨s, [], []⟩).2.store.chapter = s.chapter := by
          rcases hs : spreadFields (orEmptyObj P.phase_content) with e | fs <;>
            simp [startResume, callGetPointer, callGetPhase, callUpdateTracker,
              callUpdatePointer, stepCall, hgp, hc, hh, hs]
        have hpt : (startResume ⟨s, [], []⟩).2.store.pointer =
            update_pointer_status s.pointer P.react_order := by
          rcases hs : spreadFields (orEmptyObj P.phase_content) with e | fs <;>
            simp [startResume, callGetPointer, callGetPhase, callUpdateTracker,
              callUpdatePointer, stepCall, hgp, hc, hh, hs]
        refine startResume_resp_eq _ s P ?_ hgp
        rw [hch, hpt]
        exact fetch_after_update s.chapter s.pointer P hnd hgp
    · by_cases hm : P.phase_type = some "mcq"
      · have hch : (startResume ⟨s, [], []⟩).2.store.chapter = s.chapter := by
          rcases hs : spreadFields (orEmptyObj P.phase_content) with e | fs <;>
            simp [startResume, callGetPointer, callGetPhase, callUpdateTracker,
              callUpdatePointer, stepCall, hgp, hc, hm, hs]
        have hpt : (startResume ⟨s, [], []⟩).2.store.pointer =
            update_pointer_status s.pointer P.react_order := by
          rcases hs : spreadFields (orEmptyObj P.phase_content) with e | fs <;>
            simp [startResume, callGetPointer, callGetPhase, callUpdateTracker,
              callUpdatePointer, stepCall, hgp, hc, hm, hs]
        refine startResume_resp_eq _ s P ?_ hgp
        rw [hch, hpt]
        exact fetch_after_update s.chapter s.pointer P hnd hgp
      · have hch : (startResume ⟨s, [], []⟩).2.store.chapter = s.chapter := by
          rcases hs : spreadFields (orEmptyObj P.phase_content) with e | fs <;>
            simp [startResume, callGetPointer, callGetPhase, callUpdateTracker,
              callUpdatePointer, stepCall, hgp, hc, hm, hs]
        have hpt : (startResume ⟨s, [], []⟩).2.store.pointer =
            update_pointer_status s.pointer P.react_order := by
          rcases hs : spreadFields (orEmptyObj P.phase_content) with e | fs <;>
            simp [startResume, callGetPointer, callGetPhase, callUpdateTracker,
              callUpdatePointer, stepCall, hgp, hc, hm, hs]
        refine startResume_resp_eq _ s P ?_ hgp
        rw [hch, hpt]
        exact fetch_after_update s.chapter s.pointer P hnd hgp

/-- Witness for C1 (amended) at the tracked conversation store. -/
theorem C1_amended_witness :
    ((sConvTracked.chapter.map (fun p => p.react_order)).Nodup ∧
      (sConvTracked.trackers.map (fun e => e.1)).Nodup) ∧
    (startResume ⟨(startResume ⟨sConvTracked, [], []⟩).2.store, [], []⟩).1 =
      (startResume ⟨sConvTracked, [], []⟩).1 :=
  ⟨⟨by decide, by decide⟩,
    (C1_amended sConvTracked (by decide) (by decide)).1⟩
